import Mathlib

/-!
Shallow embedding of the dental-EMR spreadsheet parsing pipeline
(src/src/utils.ts, the surgery-sheet parser and the persistence layer).

JS strings are modelled as lists of UTF-16 code units (`List Nat`);
all claims in this development involve only BMP text, for which a Lean
string literal's code points coincide with the UTF-16 code units.
-/

namespace DentalEmr

/-- JS string: list of UTF-16 code units. -/
abbrev JSStr := List Nat

/-- Convert a Lean string literal (BMP text only) to its code-unit list. -/
def jstr (s : String) : JSStr := s.data.map Char.toNat

/-- JS `\d` character class (also used by `String.prototype.search(/\d/)`). -/
def isDigitCU (c : Nat) : Bool := 48 ≤ c && c ≤ 57

/-- JS `\s` character class (WhiteSpace ∪ LineTerminator; same set is used
by `String.prototype.trim`). -/
def isSpaceCU (c : Nat) : Bool :=
  c == 0x20 || c == 0x9 || c == 0xA || c == 0xB || c == 0xC || c == 0xD ||
  c == 0xA0 || c == 0x1680 || (0x2000 ≤ c && c ≤ 0x200A) ||
  c == 0x2028 || c == 0x2029 || c == 0x202F || c == 0x205F ||
  c == 0x3000 || c == 0xFEFF

/-- `String.prototype.trim`. -/
def trimJS (s : JSStr) : JSStr :=
  ((s.dropWhile isSpaceCU).reverse.dropWhile isSpaceCU).reverse

/-- Substring test, `String.prototype.includes`. -/
def hasSub (pat : JSStr) (s : JSStr) : Bool :=
  match s with
  | [] => pat.isEmpty
  | _ :: cs => pat.isPrefixOf s || hasSub pat cs

/-- Remove the first occurrence of the single code unit `c`
(`String.prototype.replace` with a one-character string pattern). -/
def removeFirstChar (c : Nat) : JSStr → JSStr
  | [] => []
  | d :: ds => if d == c then ds else d :: removeFirstChar c ds

/-- `s.split(' - ')[0]` style: the prefix of `s` before the first occurrence
of `pat` (the whole of `s` when `pat` does not occur). -/
def beforeFirstStr (pat : JSStr) (s : JSStr) : JSStr :=
  match s with
  | [] => []
  | c :: cs => if pat.isPrefixOf s then [] else c :: beforeFirstStr pat cs

/-- `s.split(pat).slice(1).join(pat)`: everything after the first occurrence
of `pat` (the whole of `s` when `pat` does not occur, matching the JS
expression only where guarded by an `includes` check, as in the source). -/
def afterFirstStr (pat : JSStr) (s : JSStr) : JSStr :=
  match s with
  | [] => []
  | _ :: cs => if pat.isPrefixOf s then s.drop pat.length else afterFirstStr pat cs

/-- Remove the first occurrence of substring `pat`
(`String.prototype.replace(pat, '')` with a string pattern). -/
def replaceFirstStr (pat : JSStr) (s : JSStr) : JSStr :=
  match s with
  | [] => []
  | c :: cs => if pat.isPrefixOf s then s.drop pat.length else c :: replaceFirstStr pat cs

/-- Decimal digits of a natural number as code units (JS number-to-string
for the integral values produced in `extractProductName`). -/
def natToStr (n : Nat) : JSStr := jstr (Nat.repr n)

/-- `String.prototype.padStart(2, '0')`. -/
def padStart2 (s : JSStr) : JSStr :=
  if s.length ≥ 2 then s else List.replicate (2 - s.length) 0x30 ++ s

/-! ## src/src/utils.ts : toHalfWidth -/

/-- First `replace` of `toHalfWidth`: fold a full-width form
(range U+FF01–U+FF5E) down by 0xFEE0. -/
def hwChar1 (c : Nat) : Nat := if 0xFF01 ≤ c ∧ c ≤ 0xFF5E then c - 0xFEE0 else c

/-- Second `replace` of `toHalfWidth`: ideographic space U+3000 to U+0020. -/
def hwChar2 (c : Nat) : Nat := if c = 0x3000 then 0x20 else c

/-- `toHalfWidth` from src/src/utils.ts: the two global single-character
`replace`s applied in sequence. -/
def toHalfWidth (s : JSStr) : JSStr := (s.map hwChar1).map hwChar2

/-! ## src/src/utils.ts : parsePatientInfo -/

structure PatientInfo where
  name : JSStr
  chartNumber : JSStr
deriving DecidableEq, Repr

/-- `replace(/[()]/g, '')`. -/
def stripParens (s : JSStr) : JSStr := s.filter (fun c => c ≠ 0x28 && c ≠ 0x29)

/-- `String.prototype.search` with a single-character-class pattern: index
of the first code unit satisfying `p` (`none` models the -1 result). -/
def searchIdx (p : Nat → Bool) : JSStr → Option Nat
  | [] => none
  | c :: cs => if p c then some 0 else (searchIdx p cs).map (· + 1)

/-- `parsePatientInfo` from src/src/utils.ts: split at the first decimal
digit (`search(/\d/)`), strip parentheses and trim both parts. -/
def parsePatientInfo (s : JSStr) : PatientInfo :=
  match searchIdx isDigitCU s with
  | some i => ⟨trimJS (stripParens (s.take i)), trimJS (stripParens (s.drop i))⟩
  | none => ⟨s, []⟩

/-! ## src/src/utils.ts : expandTeethRange

The JS `Set` may receive the value `undefined` (from `arch[j]` at a negative
index), so set elements are modelled as `Option JSStr`, `none` standing for
the JS `undefined` value.  The set keeps JS insertion order. -/

/-- JS `Set.prototype.add` on an insertion-ordered duplicate-free list. -/
def setAdd (l : List (Option JSStr)) (x : Option JSStr) : List (Option JSStr) :=
  if l.contains x then l else l ++ [x]

/-- The fixed upper-arch ordering (FDI codes), from src/src/utils.ts. -/
def upperArch : List JSStr :=
  [jstr "18", jstr "17", jstr "16", jstr "15", jstr "14", jstr "13", jstr "12",
   jstr "11", jstr "21", jstr "22", jstr "23", jstr "24", jstr "25", jstr "26",
   jstr "27", jstr "28"]

/-- The fixed lower-arch ordering (FDI codes), from src/src/utils.ts. -/
def lowerArch : List JSStr :=
  [jstr "38", jstr "37", jstr "36", jstr "35", jstr "34", jstr "33", jstr "32",
   jstr "31", jstr "41", jstr "42", jstr "43", jstr "44", jstr "45", jstr "46",
   jstr "47", jstr "48"]

/-- JS `Array.prototype.indexOf`: index of the first occurrence, `-1` when
absent. -/
def jsIndexOf (l : List JSStr) (x : JSStr) : Int :=
  match l.findIdx? (fun y => y == x) with
  | some i => (i : Int)
  | none => -1

/-- JS array subscript at an `Int` index: `undefined` (`none`) outside the
bounds, exactly as `arch[j]` behaves for `j = -1`. -/
def jsElem (l : List JSStr) (j : Int) : Option JSStr :=
  if j < 0 then none else l.get? j.toNat

/-- One segment of the `forEach` body of `expandTeethRange`. -/
def expandSeg (ts : List (Option JSStr)) (seg : JSStr) : List (Option JSStr) :=
  if seg.contains 0x7E then
    -- range notation: seg.split('~').map(s => s.replace('#','').trim())
    let parts := (seg.splitOn 0x7E).map (fun s => trimJS (removeFirstChar 0x23 s))
    let p0 := parts.getD 0 []
    let p1 := parts.getD 1 []
    let arch? := if upperArch.contains p0 then some upperArch
                 else if lowerArch.contains p0 then some lowerArch
                 else none
    match arch? with
    | none => ts
    | some arch =>
      let startIdx := jsIndexOf arch p0
      let endIdx := jsIndexOf arch p1
      let lo := min startIdx endIdx
      let hi := max startIdx endIdx
      (List.range (hi - lo + 1).toNat).foldl (fun acc k => setAdd acc (jsElem arch (lo + k))) ts
  else
    -- individual tooth: seg.replace('#','').trim()
    let tooth := trimJS (removeFirstChar 0x23 seg)
    if tooth.isEmpty then ts else setAdd ts (some tooth)

/-- `expandTeethRange` from src/src/utils.ts: strip all whitespace, split on
commas, process each segment. -/
def expandTeethRange (rawTeeth : JSStr) : List (Option JSStr) :=
  if rawTeeth.isEmpty then []
  else ((rawTeeth.filter (fun c => !isSpaceCU c)).splitOn 0x2C).foldl expandSeg []

/-! ## src/src/utils.ts : formatDate -/

/-- A JS `Date` object, carrying the fields the source reads
(`getFullYear`, `getMonth` — 0-based, `getDate`) together with the text its
`toString` would produce (used only when a date cell is fed to `String(...)`,
which no claim depends on). -/
structure JSDate where
  year : Nat
  month : Nat
  day : Nat
  display : JSStr
deriving DecidableEq, Repr

/-- `formatDate` from src/src/utils.ts, `Date` branch: `YYYY-MM-DD` with
zero-padded month (0-based `getMonth` plus one) and day.  (The string branch
of the source returns its input unchanged; callers dispatch on the cell type
before calling, so it is modelled at the call sites.) -/
def formatDate (d : JSDate) : JSStr :=
  natToStr d.year ++ [0x2D] ++ padStart2 (natToStr (d.month + 1)) ++ [0x2D] ++
    padStart2 (natToStr d.day)

/-! ## src/src/utils.ts : VENDOR_MAP / determineSupplier -/

/-- `VENDOR_MAP` from src/src/utils.ts, as the insertion-ordered entry list
that `Object.entries` yields (all keys are non-integer-like strings, so
insertion order is iteration order). -/
def VENDOR_MAP : List (JSStr × JSStr) :=
  [(jstr "IZENOSS", jstr "IZEN"),
   (jstr "TITAN BONE", jstr "비오케이"),
   (jstr "Allobone", jstr "씨지바이오"),
   (jstr "PUREROS", jstr "푸어로스"),
   (jstr "이젠임플란트(주)", jstr "주식회사 메타약품_의료기기팀"),
   (jstr "IZEN", jstr "주식회사 메타약품_의료기기팀"),
   (jstr "PLAN", jstr "주식회사 메타약품_의료기기팀"),
   (jstr "OSSTEM", jstr "오스템임플란트 주식회사"),
   (jstr "메가젠", jstr "(주)메가젠임플란트"),
   (jstr "Megagen", jstr "(주)메가젠임플란트"),
   (jstr "Straumann", jstr "스트라우만")]

/-- JS object property lookup `vendorMap[key]` on the entry list. -/
def assocGetStr (m : List (JSStr × JSStr)) (k : JSStr) : Option JSStr :=
  match m.find? (fun kv => kv.1 == k) with
  | some kv => some kv.2
  | none => none

/-- `determineSupplier` from src/src/utils.ts: first `VENDOR_MAP` entry (in
iteration order) whose key is a substring of the content wins; otherwise the
text before the first " - " is used as a lookup key, falling back to itself
(`vendorMap[vendorKey] || vendorKey`, so an empty mapped value also falls
back). -/
def determineSupplier (content : JSStr) (vendorMap : List (JSStr × JSStr) := VENDOR_MAP) : JSStr :=
  match vendorMap.find? (fun kv => hasSub kv.1 content) with
  | some kv => kv.2
  | none =>
    let vendorKey := trimJS (beforeFirstStr (jstr " - ") content)
    match assocGetStr vendorMap vendorKey with
    | some v => if v.isEmpty then vendorKey else v
    | none => vendorKey

/-! ## src/src/utils.ts : extractProductName

The size regex `/Φ\s*(\d+\.?\d*)\s*[*×x]\s*(\d+\.?\d*)/` is embedded as a
deterministic greedy matcher.  For this pattern greedy matching coincides
with the regex engine's backtracking search: no character accepted by a
later mandatory element (`[*×x]`, `\d`) is accepted by the greedy element
before it at a point where giving characters back could help, so a failed
greedy attempt at a position means the regex fails at that position.
The source's `parseFloat`/arithmetic runs on IEEE doubles; it is modelled
as exact rational arithmetic over natural numerator/denominator pairs,
which agrees on every value the claims evaluate. -/

/-- Value of a digit run. -/
def digitsToNat (ds : JSStr) : Nat := ds.foldl (fun acc c => 10 * acc + (c - 48)) 0

/-- `parseFloat` on a string matching `\d+\.?\d*`, as the exact
(numerator, denominator) pair `I.F = (I·10^k + F) / 10^k`. -/
def parseDec (g : JSStr) : Nat × Nat :=
  let ip := g.takeWhile isDigitCU
  let frac := ((g.drop ip.length).drop 1).takeWhile isDigitCU
  (digitsToNat ip * 10 ^ frac.length + digitsToNat frac, 10 ^ frac.length)

/-- `Math.round(v * 10)` for a non-negative `v = n/d`:
`⌊10n/d + 1/2⌋ = (20n + d) / 2d` in natural division. -/
def roundTimes10 (nd : Nat × Nat) : Nat := (20 * nd.1 + nd.2) / (2 * nd.2)

/-- `Math.floor(v)` for a non-negative `v = n/d`. -/
def floorVal (nd : Nat × Nat) : Nat := nd.1 / nd.2

/-- Attempt the size regex at the start of `s`; returns
(whole match, group 1, group 2). -/
def matchSizeAt (s : JSStr) : Option (JSStr × JSStr × JSStr) :=
  match s with
  | 934 :: rest =>
    let w1 := rest.takeWhile isSpaceCU
    let r1 := rest.drop w1.length
    let d1 := r1.takeWhile isDigitCU
    if d1.isEmpty then none else
    let r2 := r1.drop d1.length
    let dot1 : JSStr := if r2.head? == some 0x2E then [0x2E] else []
    let r3 := r2.drop dot1.length
    let d2 := r3.takeWhile isDigitCU
    let r4 := r3.drop d2.length
    let g1 := d1 ++ dot1 ++ d2
    let w2 := r4.takeWhile isSpaceCU
    let r5 := r4.drop w2.length
    match r5 with
    | op :: r6 =>
      if op == 0x2A || op == 0xD7 || op == 0x78 then
        let w3 := r6.takeWhile isSpaceCU
        let r7 := r6.drop w3.length
        let d3 := r7.takeWhile isDigitCU
        if d3.isEmpty then none else
        let r8 := r7.drop d3.length
        let dot2 : JSStr := if r8.head? == some 0x2E then [0x2E] else []
        let r9 := r8.drop dot2.length
        let d4 := r9.takeWhile isDigitCU
        let g2 := d3 ++ dot2 ++ d4
        some (934 :: (w1 ++ g1 ++ w2 ++ [op] ++ w3 ++ g2), g1, g2)
      else none
    | [] => none
  | _ => none

/-- Leftmost match of the size regex (`String.prototype.match` semantics). -/
def matchSizeFirst (s : JSStr) : Option (JSStr × JSStr × JSStr) :=
  match s with
  | [] => none
  | _ :: cs =>
    match matchSizeAt s with
    | some m => some m
    | none => matchSizeFirst cs

/-- `extractProductName` from src/src/utils.ts: text before the first `/`,
then after the first " - " when present, with the size notation rewritten to
the compact diameter/length code. -/
def extractProductName (rawRecord : JSStr) : JSStr :=
  let productPart := trimJS (rawRecord.takeWhile (fun c => c ≠ 0x2F))
  let cleanProduct :=
    if hasSub (jstr " - ") productPart then trimJS (afterFirstStr (jstr " - ") productPart)
    else productPart
  match matchSizeFirst cleanProduct with
  | some (whole, g1, g2) =>
    let dia := roundTimes10 (parseDec g1)
    let len := floorVal (parseDec g2)
    trimJS (replaceFirstStr whole cleanProduct) ++ [0x20] ++ natToStr dia ++
      padStart2 (natToStr len)
  | none => cleanProduct

/-! ## src/src/utils.ts : extractBoneGraftProducts

The global regex `/\(동\)\s*([^,\/]+)/g` is embedded as a left-to-right scan.
At an occurrence of the literal `(동)`, `\s*` and `[^,\/]+` together consume
exactly the characters up to the next comma/slash (or the end), because
`[^,\/]` also accepts whitespace and backtracking only shifts characters
between the two, never the total; the attempt fails only when nothing
follows the marker before a comma/slash, and `exec` then resumes at the next
position.  The trimmed capture is identical either way. -/

/-- `Map.set(k, get(k)+1)`: existing keys keep their position, new keys are
appended (JS `Map` insertion order). -/
def bumpCount (m : List (JSStr × Nat)) (k : JSStr) : List (JSStr × Nat) :=
  match m with
  | [] => [(k, 1)]
  | (k', n) :: rest => if k' == k then (k', n + 1) :: rest else (k', n) :: bumpCount rest k

/-- The bone-graft marker literal `(동)`. -/
def boneMarker : JSStr := jstr "(동)"

/-- Scanning loop of `extractBoneGraftProducts`.  Structural recursion on a
fuel bound: every recursive call shortens the scanned text by at least one
code unit, so fuel equal to the text length makes the bound unreachable and
the fuel-free scan is computed exactly. -/
def extractGo (fuel : Nat) (s : JSStr) (acc : List (JSStr × Nat)) : List (JSStr × Nat) :=
  match fuel, s with
  | _, [] => acc
  | 0, _ => acc
  | fuel + 1, c :: cs =>
    if boneMarker.isPrefixOf (c :: cs) then
      let rest := (c :: cs).drop 3
      let chunk := rest.takeWhile (fun d => d ≠ 0x2C && d ≠ 0x2F)
      if chunk.isEmpty then extractGo fuel cs acc
      else
        let itemName := trimJS chunk
        extractGo fuel (rest.drop chunk.length)
          (if itemName.isEmpty then acc else bumpCount acc itemName)
    else extractGo fuel cs acc

/-- `extractBoneGraftProducts` from src/src/utils.ts: per-product occurrence
counts in insertion order. -/
def extractBoneGraftProducts (content : JSStr) : List (JSStr × Nat) :=
  extractGo content.length content []

/-! ## The parser (surgery sheets → records)

A sheet cell as delivered by the spreadsheet reader is text, a `Date`
object, or absent.  (Numeric cells would stringify through JS number
formatting; no claim depends on a numeric cell, so they are not modelled.)
A sheet is the `header: 1` row-of-cells list; the parsers skip row 0. -/

inductive Cell where
  | str (s : JSStr)
  | date (d : JSDate)
  | empty
deriving DecidableEq, Repr

/-- `String(cell || '')`: absent and the (falsy) empty string give `''`;
a `Date` gives its `toString` text. -/
def cellToStr : Cell → JSStr
  | .str s => s
  | .date d => d.display
  | .empty => []

/-- The date-cell dispatch of the parsers: `Date` instances through
`formatDate`, strings as-is, anything else leaves `dateStr` empty. -/
def dateStrOf : Cell → JSStr
  | .date d => formatDate d
  | .str s => s
  | .empty => []

/-- `ImplantRecord` from the parser module. -/
structure ImplantRecord where
  date : JSStr
  patientName : JSStr
  chartNumber : JSStr
  teethSet : List (Option JSStr)
  quantity : Nat
  supplier : JSStr
  productName : JSStr
  isInsurance : Bool
deriving DecidableEq, Repr

/-- `BoneGraftRecord` from the parser module. -/
structure BoneGraftRecord where
  date : JSStr
  patientName : JSStr
  chartNumber : JSStr
  teethSet : List (Option JSStr)
  products : List (JSStr × Nat)
deriving DecidableEq, Repr

/-- JS `Map.prototype.get` on an insertion-ordered entry list
(the insurance index built by `parseInsuranceData`). -/
def assocGetTeeth (m : List (JSStr × List JSStr)) (k : JSStr) : Option (List JSStr) :=
  match m.find? (fun kv => kv.1 == k) with
  | some kv => some kv.2
  | none => none

/-- The half-width-normalized surgical-note text of a row (column D). -/
def rowNote (row : List Cell) : JSStr := toHalfWidth (cellToStr (row.getD 3 .empty))

/-- A row's expanded tooth set (column C). -/
def rowTeethSet (row : List Cell) : List (Option JSStr) :=
  expandTeethRange (cellToStr (row.getD 2 .empty))

/-- A row's insurance-lookup key: formatted date, `|`, chart number. -/
def rowLookupKey (row : List Cell) : JSStr :=
  dateStrOf (row.getD 0 .empty) ++ [0x7C] ++
    (parsePatientInfo (cellToStr (row.getD 1 .empty))).chartNumber

/-- `insTeeth.some((t) => teethSet.has(t))` of `parseSurgeryImplant`. -/
def rowIsInsurance (insMap : List (JSStr × List JSStr)) (row : List Cell) : Bool :=
  ((assocGetTeeth insMap (rowLookupKey row)).getD []).any
    (fun t => (rowTeethSet row).contains (some t))

/-- The GBR-only marker literal. -/
def gbrMarker : JSStr := jstr "[GBR Only]"

/-- The loop body of `parseSurgeryImplant` for one data row: `none` models
`continue` (row shorter than 4 cells, blank patient cell, or a GBR-only
classification). -/
def processImplantRow (insMap : List (JSStr × List JSStr)) (row : List Cell) :
    Option ImplantRecord :=
  if row.length < 4 then none
  else
    let rawPatient := cellToStr (row.getD 1 .empty)
    if rawPatient.isEmpty then none
    else
      let pinfo := parsePatientInfo rawPatient
      let teethSet := rowTeethSet row
      let dateStr := dateStrOf (row.getD 0 .empty)
      let rawRecord := rowNote row
      if rowIsInsurance insMap row then
        some ⟨dateStr, pinfo.name, pinfo.chartNumber, teethSet, teethSet.length,
              jstr "보험", extractProductName rawRecord, true⟩
      else if hasSub gbrMarker rawRecord then none
      else
        some ⟨dateStr, pinfo.name, pinfo.chartNumber, teethSet, teethSet.length,
              determineSupplier rawRecord, extractProductName rawRecord, false⟩

/-- `parseSurgeryImplant`: all data rows (header skipped) through the loop
body, kept in sheet order. -/
def parseSurgeryImplant (sheet : List (List Cell)) (insMap : List (JSStr × List JSStr)) :
    List ImplantRecord :=
  (sheet.drop 1).filterMap (processImplantRow insMap)

/-- The loop body of `parseSurgeryBone` for one data row: a record is
produced only when at least one bone-graft product was extracted (the note
text is used raw, without half-width normalization). -/
def processBoneRow (row : List Cell) : Option BoneGraftRecord :=
  if row.length < 4 then none
  else
    let rawPatient := cellToStr (row.getD 1 .empty)
    if rawPatient.isEmpty then none
    else
      let pinfo := parsePatientInfo rawPatient
      let teethSet := rowTeethSet row
      let dateStr := dateStrOf (row.getD 0 .empty)
      let products := extractBoneGraftProducts (cellToStr (row.getD 3 .empty))
      if products.length > 0 then
        some ⟨dateStr, pinfo.name, pinfo.chartNumber, teethSet, products⟩
      else none

/-- `parseSurgeryBone`: all data rows (header skipped) through the loop
body. -/
def parseSurgeryBone (sheet : List (List Cell)) : List BoneGraftRecord :=
  (sheet.drop 1).filterMap processBoneRow

/-! ## The persistence layer (src/unnamed/part_004)

The D1 store is modelled as explicit state: the three tables as
insertion-ordered row lists, plus the auto-increment counter backing
`last_row_id`. -/

structure TreatmentRow where
  id : Nat
  branchName : JSStr
  patientName : JSStr
  chartNumber : JSStr
  toothNumber : Option JSStr
deriving DecidableEq, Repr

structure ImplantRow where
  treatmentId : Nat
  date : JSStr
  productName : JSStr
  quantity : Nat
  amount : Nat
  supplier : JSStr
  isInsurance : Bool
deriving DecidableEq, Repr

structure BoneRow where
  treatmentId : Nat
  date : JSStr
  productName : JSStr
  quantity : Nat
  amount : Nat
  supplier : JSStr
deriving DecidableEq, Repr

structure DBState where
  nextId : Nat
  treatments : List TreatmentRow
  implants : List ImplantRow
  boneGrafts : List BoneRow
deriving DecidableEq, Repr

/-- `findOrCreateTreatmentRecord`: the id of the first existing row matching
(branch, chart, tooth), else a freshly inserted row's id. -/
def findOrCreateTreatmentRecord (db : DBState) (branch : JSStr) (patientName : JSStr)
    (chartNumber : JSStr) (tooth : Option JSStr) : Nat × DBState :=
  match db.treatments.find?
      (fun t => t.branchName == branch && t.chartNumber == chartNumber &&
                t.toothNumber == tooth) with
  | some t => (t.id, db)
  | none =>
    (db.nextId,
     { db with
        nextId := db.nextId + 1,
        treatments := db.treatments ++ [⟨db.nextId, branch, patientName, chartNumber, tooth⟩] })

/-- The per-tooth loop body of `saveImplantRecords`: find or create the
treatment row and insert one implant row with quantity 1 and amount 0. -/
def implantStep (branch : JSStr) (r : ImplantRecord) (acc : Nat × DBState)
    (tooth : Option JSStr) : Nat × DBState :=
  let fc := findOrCreateTreatmentRecord acc.2 branch r.patientName r.chartNumber tooth
  (acc.1 + 1,
   { fc.2 with
      implants := fc.2.implants ++
        [⟨fc.1, r.date, r.productName, 1, 0, r.supplier, r.isInsurance⟩] })

/-- `saveImplantRecords`: per record, per tooth of its `teethSet`, one
implant insert; returns the running insert count with the final store. -/
def saveImplantRecords (db : DBState) (branch : JSStr) (records : List ImplantRecord) :
    Nat × DBState :=
  records.foldl (fun acc r => r.teethSet.foldl (implantStep branch r) acc) (0, db)

/-- The per-product supplier loop of `saveBoneGraftRecords`: first
`VENDOR_MAP` key contained (case-folded to upper) in the product name wins,
else the unspecified-supplier sentinel. -/
def toUpperCU (c : Nat) : Nat :=
  if (0x61 ≤ c ∧ c ≤ 0x7A) ∨ (0xFF41 ≤ c ∧ c ≤ 0xFF5A) then c - 0x20 else c

def toUpperJS (s : JSStr) : JSStr := s.map toUpperCU

def boneSupplierFor (productName : JSStr) : JSStr :=
  match VENDOR_MAP.find? (fun kv => hasSub (toUpperJS kv.1) (toUpperJS productName)) with
  | some kv => kv.2
  | none => jstr "기타/미지정"

/-- The per-product loop body of `saveBoneGraftRecords`: insert one
bone-graft row carrying that product's occurrence count and amount 0. -/
def boneProdStep (r : BoneGraftRecord) (tid : Nat) (acc : Nat × DBState)
    (pq : JSStr × Nat) : Nat × DBState :=
  (acc.1 + 1,
   { acc.2 with
      boneGrafts := acc.2.boneGrafts ++
        [⟨tid, r.date, pq.1, pq.2, 0, boneSupplierFor pq.1⟩] })

/-- The per-tooth loop body of `saveBoneGraftRecords`: find or create the
treatment row, then run the product loop. -/
def boneToothStep (branch : JSStr) (r : BoneGraftRecord) (acc : Nat × DBState)
    (tooth : Option JSStr) : Nat × DBState :=
  let fc := findOrCreateTreatmentRecord acc.2 branch r.patientName r.chartNumber tooth
  r.products.foldl (boneProdStep r fc.1) (acc.1, fc.2)

/-- `saveBoneGraftRecords`: per record, per tooth, per product entry, one
bone-graft insert. -/
def saveBoneGraftRecords (db : DBState) (branch : JSStr) (records : List BoneGraftRecord) :
    Nat × DBState :=
  records.foldl (fun acc r => r.teethSet.foldl (boneToothStep branch r) acc) (0, db)

/-! ## Theorems -/

/-- One pass of the two normalizing character maps is a fixed point of
another pass. -/
lemma hwChar_idem (c : Nat) : hwChar2 (hwChar1 (hwChar2 (hwChar1 c))) = hwChar2 (hwChar1 c) := by
  unfold hwChar1 hwChar2
  split_ifs <;> omega

/-- C9: the text normalizer is idempotent: for every text x,
toHalfWidth (toHalfWidth x) = toHalfWidth x. -/
theorem claim9_halfwidth_idempotent (s : JSStr) :
    toHalfWidth (toHalfWidth s) = toHalfWidth s := by
  simp only [toHalfWidth, List.map_map]
  exact List.map_congr_left (fun c _ => hwChar_idem c)

lemma searchIdx_none_spec (p : Nat → Bool) :
    ∀ s : JSStr, searchIdx p s = none → s.any p = false := by
  intro s
  induction s with
  | nil => intro _; rfl
  | cons c cs ih =>
    intro h
    unfold searchIdx at h
    by_cases hc : p c
    · simp [hc] at h
    · simp only [List.any_cons, hc, Bool.false_or]
      rcases h'' : searchIdx p cs with _ | j
      · exact ih h''
      · rw [h''] at h; simp [hc] at h

lemma searchIdx_some_spec (p : Nat → Bool) :
    ∀ (s : JSStr) (i : Nat), searchIdx p s = some i →
      s.take i = s.takeWhile (fun c => !p c) ∧
      s.drop i = s.dropWhile (fun c => !p c) ∧ s.any p = true := by
  intro s
  induction s with
  | nil => intro i h; exact Option.noConfusion h
  | cons c cs ih =>
    intro i h
    unfold searchIdx at h
    by_cases hc : p c
    · rw [if_pos hc] at h
      cases h
      simp [List.takeWhile_cons, List.dropWhile_cons, hc]
    · rw [if_neg hc] at h
      rcases h'' : searchIdx p cs with _ | j
      · rw [h''] at h; simp at h
      · rw [h''] at h
        simp at h
        obtain rfl : i = j + 1 := by omega
        obtain ⟨h1, h2, h3⟩ := ih j h''
        simp [List.takeWhile_cons, List.dropWhile_cons, hc, h1, h2, h3]

/-- C8: parsePatientInfo splits at the first decimal digit — the part
before it, parentheses stripped and trimmed, is the name, the rest the
chart number; with no digit, the whole text is the name and the chart
number is empty; in particular on "홍길동(12345)" and "NoDigitsHere". -/
theorem claim8_patient_split :
    (∀ s : JSStr,
      parsePatientInfo s =
        if s.any (fun c => isDigitCU c) then
          ⟨trimJS (stripParens (s.takeWhile (fun c => !isDigitCU c))),
           trimJS (stripParens (s.dropWhile (fun c => !isDigitCU c)))⟩
        else ⟨s, []⟩) ∧
    parsePatientInfo (jstr "홍길동(12345)") = ⟨jstr "홍길동", jstr "12345"⟩ ∧
    parsePatientInfo (jstr "NoDigitsHere") = ⟨jstr "NoDigitsHere", []⟩ := by
  refine ⟨?_, by decide, by decide⟩
  intro s
  unfold parsePatientInfo
  rcases h : searchIdx isDigitCU s with _ | i
  · simp [searchIdx_none_spec _ s h]
  · obtain ⟨h1, h2, h3⟩ := searchIdx_some_spec _ s i h
    simp only [h3, if_true]
    rw [← h1, ← h2]

/-- C5 counterexample: on the note "IZEN - IZENOSS Φ5.0×10 / etc" the
supplier returned is "IZEN" (the value of the first matching alias key,
"IZENOSS"), which differs from the value the alias table maps from the key
"IZEN". -/
theorem claim5_counterexample :
    determineSupplier (jstr "IZEN - IZENOSS Φ5.0×10 / etc") = jstr "IZEN" ∧
    assocGetStr VENDOR_MAP (jstr "IZEN") = some (jstr "주식회사 메타약품_의료기기팀") ∧
    determineSupplier (jstr "IZEN - IZENOSS Φ5.0×10 / etc") ≠
      jstr "주식회사 메타약품_의료기기팀" := by
  refine ⟨by decide, by decide, by decide⟩

/-- C5 (amended): on "IZEN - IZENOSS Φ5.0×10 / etc" with no insurance match
and no GBR marker, the supplier is the value the alias table maps from the
first matching key "IZENOSS", namely "IZEN", and the product name is
"IZENOSS 5010" (diameter 5.0 → "50", length 10 → "10"). -/
theorem claim5_supplier_product :
    determineSupplier (jstr "IZEN - IZENOSS Φ5.0×10 / etc") = jstr "IZEN" ∧
    assocGetStr VENDOR_MAP (jstr "IZENOSS") = some (jstr "IZEN") ∧
    extractProductName (jstr "IZEN - IZENOSS Φ5.0×10 / etc") = jstr "IZENOSS 5010" := by
  refine ⟨by decide, by decide, by decide⟩

/-- C2: evaluation of the code at the range "17~38", whose endpoints lie in
different arches.  The spec says such a segment contributes nothing, but
the code resolves the arch from the first endpoint alone, gets `indexOf`
= -1 for the second, and the loop from -1 adds the JS `undefined` value
(`none`) plus the arch prefix up to the first endpoint. -/
theorem claim2_cross_arch_eval :
    expandTeethRange (jstr "17~38") = [none, some (jstr "18"), some (jstr "17")] ∧
    expandTeethRange (jstr "17~38") ≠ [] := by
  refine ⟨by decide, by decide⟩

/-- The two fixed arch orderings, selected by a flag. -/
def archOf (b : Bool) : List JSStr := if b then upperArch else lowerArch

set_option maxRecDepth 10000 in
/-- C6: for a range "A~B" with both endpoints at positions i and j of the
same 16-element arch ordering, the expansion is exactly the identifiers at
positions min i j through max i j inclusive of that ordering — the same
set whichever endpoint comes first. -/
theorem claim6_same_arch_range :
    ∀ (b : Bool) (i j : Fin 16),
      expandTeethRange ((archOf b).getD i [] ++ [0x7E] ++ (archOf b).getD j []) =
        (((archOf b).drop (min i.val j.val)).take (max i.val j.val - min i.val j.val + 1)).map
          some := by
  decide

/-- A text with no occurrence of the bone-graft marker makes the scanning
loop return its accumulator unchanged. -/
lemma extractGo_no_marker :
    ∀ (fuel : Nat) (s : JSStr) (acc : List (JSStr × Nat)),
      hasSub boneMarker s = false → extractGo fuel s acc = acc := by
  intro fuel
  induction fuel with
  | zero => intro s acc _; cases s <;> rfl
  | succ n ih =>
    intro s acc h
    match s with
    | [] => rfl
    | c :: cs =>
      unfold hasSub at h
      rw [Bool.or_eq_false_iff] at h
      unfold extractGo
      rw [if_neg (by simp [h.1])]
      exact ih cs acc h.2

/-- C7: the marker-twice note "(동) BoneX, (동) BoneX," extracts the
products map BoneX ↦ 2; and a row whose note has zero marker occurrences
produces no BoneGraftRecord at all. -/
theorem claim7_bone_products :
    extractBoneGraftProducts (jstr "(동) BoneX, (동) BoneX,") = [(jstr "BoneX", 2)] ∧
    ∀ row : List Cell,
      hasSub boneMarker (cellToStr (row.getD 3 .empty)) = false →
      processBoneRow row = none := by
  refine ⟨by decide, ?_⟩
  intro row h
  have hp : extractBoneGraftProducts (cellToStr (row.getD 3 .empty)) = [] :=
    extractGo_no_marker _ _ _ h
  unfold processBoneRow
  split
  · rfl
  · simp only [hp]
    split
    · rfl
    · rfl

/-- A GBR-marked row that does match the insurance index: the insurance
branch runs first, so the row is still emitted. -/
def c3Row : List Cell :=
  [.str (jstr "2024-01-01"), .str (jstr "A1"), .str (jstr "11"),
   .str (jstr "[GBR Only]")]

def c3InsMap : List (JSStr × List JSStr) := [(jstr "2024-01-01|1", [jstr "11"])]

/-- C3 counterexample: a row whose note contains the GBR-only marker and
which also matches an insurance-index entry IS emitted (the insurance
branch takes precedence over the GBR check), contradicting the claim that
such a row never appears in the output sequence. -/
theorem claim3_counterexample :
    hasSub gbrMarker (rowNote c3Row) = true ∧
    rowIsInsurance c3InsMap c3Row = true ∧
    processImplantRow c3InsMap c3Row ≠ none ∧
    parseSurgeryImplant [[], c3Row] c3InsMap ≠ [] := by
  refine ⟨by decide, by decide, by decide, by decide⟩

/-- C3 (amended): a row whose normalized note contains the GBR-only marker
and which is NOT insurance-matched never yields an ImplantRecord. -/
theorem claim3_gbr_only_discarded (insMap : List (JSStr × List JSStr)) (row : List Cell)
    (hm : hasSub gbrMarker (rowNote row) = true)
    (hi : rowIsInsurance insMap row = false) :
    processImplantRow insMap row = none := by
  unfold processImplantRow
  split
  · rfl
  · simp only [hi, hm]
    split
    · rfl
    · rfl

def c3Row2 : List Cell :=
  [.str (jstr "2024-01-01"), .str (jstr "B2"), .str (jstr "12"),
   .str (jstr "[GBR Only]")]

/-- Witness for the amended C3 at a concrete non-insurance GBR row. -/
theorem claim3_gbr_only_discarded_witness :
    hasSub gbrMarker (rowNote c3Row2) = true ∧
    rowIsInsurance [] c3Row2 = false ∧
    processImplantRow [] c3Row2 = none :=
  ⟨by decide, by decide, claim3_gbr_only_discarded [] c3Row2 (by decide) (by decide)⟩

/-- C4: every emitted ImplantRecord has isInsurance true iff some tooth of
its expanded teethSet occurs in the insurance-index sequence under the key
formatted-date | chart-number, and isInsurance true forces the insurance
sentinel supplier. -/
theorem claim4_insurance_iff (insMap : List (JSStr × List JSStr)) (row : List Cell)
    (rec : ImplantRecord) (h : processImplantRow insMap row = some rec) :
    (rec.isInsurance = true ↔
      ∃ t ∈ (assocGetTeeth insMap (rec.date ++ [0x7C] ++ rec.chartNumber)).getD [],
        some t ∈ rec.teethSet) ∧
    (rec.isInsurance = true → rec.supplier = jstr "보험") := by
  simp only [processImplantRow] at h
  split at h
  · exact absurd h (by simp)
  · split at h
    · exact absurd h (by simp)
    · split at h
      · -- insurance branch: the emitted record has isInsurance = true
        rename_i hcond
        rw [Option.some.injEq] at h
        subst h
        refine ⟨⟨fun _ => ?_, fun _ => rfl⟩, fun _ => rfl⟩
        unfold rowIsInsurance rowLookupKey at hcond
        rw [List.any_eq_true] at hcond
        obtain ⟨t, ht, hc⟩ := hcond
        exact ⟨t, ht, by simpa using hc⟩
      · rename_i hnotins
        split at h
        · exact absurd h (by simp)
        · -- plain branch: the emitted record has isInsurance = false
          rw [Option.some.injEq] at h
          subst h
          refine ⟨⟨fun hfalse => absurd hfalse (by simp), fun hex => ?_⟩,
                  fun hfalse => absurd hfalse (by simp)⟩
          exfalso
          apply hnotins
          unfold rowIsInsurance rowLookupKey
          rw [List.any_eq_true]
          obtain ⟨t, ht, hmem⟩ := hex
          exact ⟨t, ht, by simpa using hmem⟩

/-- C10 (implicit): a primary-sheet row of at least 4 cells with a
non-blank patient cell, no GBR marker and a tooth cell yielding no teeth
(hence never insurance-matched) still emits an ImplantRecord, with empty
teethSet and quantity 0, for which the persistence loop inserts nothing. -/
theorem claim10_empty_teeth_record (insMap : List (JSStr × List JSStr)) (row : List Cell)
    (db : DBState) (branch : JSStr)
    (h1 : ¬row.length < 4)
    (h2 : (cellToStr (row.getD 1 .empty)).isEmpty = false)
    (h3 : hasSub gbrMarker (rowNote row) = false)
    (h4 : rowTeethSet row = []) :
    ∃ rec, processImplantRow insMap row = some rec ∧ rec.teethSet = [] ∧ rec.quantity = 0 ∧
      saveImplantRecords db branch [rec] = (0, db) := by
  have hins : rowIsInsurance insMap row = false := by
    unfold rowIsInsurance
    simp [h4]
  refine ⟨⟨dateStrOf (row.getD 0 .empty),
           (parsePatientInfo (cellToStr (row.getD 1 .empty))).name,
           (parsePatientInfo (cellToStr (row.getD 1 .empty))).chartNumber,
           [], 0, determineSupplier (rowNote row), extractProductName (rowNote row), false⟩,
         ?_, rfl, rfl, rfl⟩
  unfold processImplantRow
  rw [if_neg h1]
  simp only [h2, hins, h3, h4]
  rfl

def c10Row : List Cell :=
  [.str (jstr "2024-02-02"), .str (jstr "C3"), .str (jstr ""), .str (jstr "note")]

def c10Db : DBState := ⟨1, [], [], []⟩

/-- Witness for C10 at a concrete row with an empty tooth cell. -/
theorem claim10_empty_teeth_record_witness :
    ¬c10Row.length < 4 ∧
    (∃ rec, processImplantRow [] c10Row = some rec ∧ rec.teethSet = [] ∧ rec.quantity = 0 ∧
      saveImplantRecords c10Db (jstr "b") [rec] = (0, c10Db)) :=
  ⟨by decide,
   claim10_empty_teeth_record [] c10Row c10Db (jstr "b") (by decide) (by decide) (by decide)
     (by decide)⟩

def c4Row : List Cell :=
  [.str (jstr "2024-01-01"), .str (jstr "A1"), .str (jstr "11"),
   .str (jstr "OSSTEM implant")]

def c4InsMap : List (JSStr × List JSStr) := [(jstr "2024-01-01|1", [jstr "11"])]

def c4Rec : ImplantRecord :=
  ⟨jstr "2024-01-01", jstr "A", jstr "1", [some (jstr "11")], 1, jstr "보험",
   jstr "OSSTEM implant", true⟩

/-- Witness for C4 at a concrete insurance-matched row. -/
theorem claim4_insurance_iff_witness :
    processImplantRow c4InsMap c4Row = some c4Rec ∧
    ((c4Rec.isInsurance = true ↔
      ∃ t ∈ (assocGetTeeth c4InsMap (c4Rec.date ++ [0x7C] ++ c4Rec.chartNumber)).getD [],
        some t ∈ c4Rec.teethSet) ∧
     (c4Rec.isInsurance = true → c4Rec.supplier = jstr "보험")) :=
  ⟨by decide, claim4_insurance_iff c4InsMap c4Row c4Rec (by decide)⟩

def c7Row : List Cell :=
  [.str (jstr "2024-01-01"), .str (jstr "A1"), .str (jstr "11"),
   .str (jstr "no marker here")]

/-- Witness for the zero-marker half of C7 at a concrete row. -/
theorem claim7_bone_products_witness :
    hasSub boneMarker (cellToStr (c7Row.getD 3 .empty)) = false ∧
    processBoneRow c7Row = none :=
  ⟨by decide, claim7_bone_products.2 c7Row (by decide)⟩

/-! ### Persistence-layer lemmas for C1 -/

lemma findOrCreate_implants (db : DBState) (branch n ch : JSStr) (t : Option JSStr) :
    ((findOrCreateTreatmentRecord db branch n ch t).2).implants = db.implants := by
  unfold findOrCreateTreatmentRecord
  split <;> rfl

lemma findOrCreate_boneGrafts (db : DBState) (branch n ch : JSStr) (t : Option JSStr) :
    ((findOrCreateTreatmentRecord db branch n ch t).2).boneGrafts = db.boneGrafts := by
  unfold findOrCreateTreatmentRecord
  split <;> rfl

lemma implant_fold_spec (branch : JSStr) (r : ImplantRecord) :
    ∀ (teeth : List (Option JSStr)) (cnt : Nat) (db : DBState),
      ∃ rows : List ImplantRow,
        (teeth.foldl (implantStep branch r) (cnt, db)).1 = cnt + teeth.length ∧
        (teeth.foldl (implantStep branch r) (cnt, db)).2.implants = db.implants ++ rows ∧
        rows.length = teeth.length ∧
        ∀ row ∈ rows, row.quantity = 1 := by
  intro teeth
  induction teeth with
  | nil => intro cnt db; exact ⟨[], rfl, by simp, rfl, by simp⟩
  | cons t ts ih =>
    intro cnt db
    rw [List.foldl_cons]
    obtain ⟨rows1, hc, hi, hl, hq⟩ := ih (cnt + 1) ((implantStep branch r (cnt, db) t).2)
    have hdb1 : ((implantStep branch r (cnt, db) t).2).implants =
        db.implants ++
          [⟨(findOrCreateTreatmentRecord db branch r.patientName r.chartNumber t).1,
            r.date, r.productName, 1, 0, r.supplier, r.isInsurance⟩] := by
      simp [implantStep, findOrCreate_implants]
    refine ⟨⟨(findOrCreateTreatmentRecord db branch r.patientName r.chartNumber t).1,
              r.date, r.productName, 1, 0, r.supplier, r.isInsurance⟩ :: rows1, ?_, ?_, ?_, ?_⟩
    · have hc' : (ts.foldl (implantStep branch r) (implantStep branch r (cnt, db) t)).1 =
          cnt + 1 + ts.length := hc
      rw [hc', List.length_cons]
      omega
    · have hi' : (ts.foldl (implantStep branch r) (implantStep branch r (cnt, db) t)).2.implants =
          ((implantStep branch r (cnt, db) t).2).implants ++ rows1 := hi
      rw [hi', hdb1, List.append_assoc]
      rfl
    · simp [hl]
    · intro row hr
      rcases List.mem_cons.mp hr with heq | hmem
      · rw [heq]
      · exact hq row hmem

lemma boneProd_fold_spec (r : BoneGraftRecord) (tid : Nat) :
    ∀ (prods : List (JSStr × Nat)) (cnt : Nat) (db : DBState),
      (prods.foldl (boneProdStep r tid) (cnt, db)).1 = cnt + prods.length ∧
      (prods.foldl (boneProdStep r tid) (cnt, db)).2 =
        { db with boneGrafts := db.boneGrafts ++
            prods.map (fun pq => ⟨tid, r.date, pq.1, pq.2, 0, boneSupplierFor pq.1⟩) } := by
  intro prods
  induction prods with
  | nil => intro cnt db; exact ⟨rfl, by simp⟩
  | cons p ps ih =>
    intro cnt db
    rw [List.foldl_cons]
    obtain ⟨h1, h2⟩ := ih (cnt + 1) ((boneProdStep r tid (cnt, db) p).2)
    constructor
    · have h1' : (ps.foldl (boneProdStep r tid) (boneProdStep r tid (cnt, db) p)).1 =
          cnt + 1 + ps.length := h1
      rw [h1', List.length_cons]
      omega
    · have h2' : (ps.foldl (boneProdStep r tid) (boneProdStep r tid (cnt, db) p)).2 =
          { (boneProdStep r tid (cnt, db) p).2 with
              boneGrafts := ((boneProdStep r tid (cnt, db) p).2).boneGrafts ++
                ps.map (fun pq => ⟨tid, r.date, pq.1, pq.2, 0, boneSupplierFor pq.1⟩) } := h2
      rw [h2']
      simp [boneProdStep, List.append_assoc]

lemma boneTooth_fold_spec (branch : JSStr) (r : BoneGraftRecord) :
    ∀ (teeth : List (Option JSStr)) (cnt : Nat) (db : DBState),
      ∃ rows : List BoneRow,
        (teeth.foldl (boneToothStep branch r) (cnt, db)).1 =
          cnt + teeth.length * r.products.length ∧
        (teeth.foldl (boneToothStep branch r) (cnt, db)).2.boneGrafts =
          db.boneGrafts ++ rows ∧
        rows.map (fun row => (row.productName, row.quantity)) =
          (List.replicate teeth.length r.products).flatten := by
  intro teeth
  induction teeth with
  | nil => intro cnt db; exact ⟨[], by simp, by simp, by simp⟩
  | cons t ts ih =>
    intro cnt db
    rw [List.foldl_cons]
    obtain ⟨hp1, hp2⟩ :=
      boneProd_fold_spec r (findOrCreateTreatmentRecord db branch r.patientName r.chartNumber t).1
        r.products cnt ((findOrCreateTreatmentRecord db branch r.patientName r.chartNumber t).2)
    obtain ⟨rows1, h1, h2, h3⟩ :=
      ih ((boneToothStep branch r (cnt, db) t).1) ((boneToothStep branch r (cnt, db) t).2)
    have e1 : (boneToothStep branch r (cnt, db) t).1 = cnt + r.products.length := hp1
    have e3 : (boneToothStep branch r (cnt, db) t).2.boneGrafts =
        db.boneGrafts ++
          r.products.map (fun pq =>
            (⟨(findOrCreateTreatmentRecord db branch r.patientName r.chartNumber t).1,
              r.date, pq.1, pq.2, 0, boneSupplierFor pq.1⟩ : BoneRow)) := by
      have hp2' : (boneToothStep branch r (cnt, db) t).2 =
          { (findOrCreateTreatmentRecord db branch r.patientName r.chartNumber t).2 with
              boneGrafts :=
                ((findOrCreateTreatmentRecord db branch r.patientName r.chartNumber t).2).boneGrafts
                  ++ r.products.map (fun pq =>
                      ⟨(findOrCreateTreatmentRecord db branch r.patientName r.chartNumber t).1,
                       r.date, pq.1, pq.2, 0, boneSupplierFor pq.1⟩) } := hp2
      rw [hp2']
      simp [findOrCreate_boneGrafts]
    refine ⟨r.products.map (fun pq =>
              (⟨(findOrCreateTreatmentRecord db branch r.patientName r.chartNumber t).1,
                r.date, pq.1, pq.2, 0, boneSupplierFor pq.1⟩ : BoneRow)) ++ rows1, ?_, ?_, ?_⟩
    · have h1' : (ts.foldl (boneToothStep branch r) (boneToothStep branch r (cnt, db) t)).1 =
          (boneToothStep branch r (cnt, db) t).1 + ts.length * r.products.length := h1
      rw [h1', e1, List.length_cons]
      ring
    · have h2' : (ts.foldl (boneToothStep branch r) (boneToothStep branch r (cnt, db) t)).2.boneGrafts =
          (boneToothStep branch r (cnt, db) t).2.boneGrafts ++ rows1 := h2
      rw [h2', e3, List.append_assoc]
    · rw [List.map_append, h3, List.map_map, List.length_cons, List.replicate_succ,
        List.flatten_cons]
      congr 1
      have : ((fun row : BoneRow => (row.productName, row.quantity)) ∘
          fun pq : JSStr × Nat =>
            (⟨(findOrCreateTreatmentRecord db branch r.patientName r.chartNumber t).1,
              r.date, pq.1, pq.2, 0, boneSupplierFor pq.1⟩ : BoneRow)) =
          fun pq : JSStr × Nat => (pq.1, pq.2) := rfl
      rw [this]
      simp

/-- In an entry list with pairwise-distinct keys, exactly one entry carries
a key that is present. -/
lemma countP_fst_one :
    ∀ (prods : List (JSStr × Nat)) (p : JSStr) (q : Nat),
      (prods.map Prod.fst).Nodup → (p, q) ∈ prods →
      prods.countP (fun pq => pq.1 == p) = 1 := by
  intro prods
  induction prods with
  | nil => intro p q _ hm; cases hm
  | cons a rest ih =>
    intro p q hnd hm
    rw [List.map_cons, List.nodup_cons] at hnd
    rw [List.countP_cons]
    rcases List.mem_cons.mp hm with heq | hmem
    · have hap : a.1 = p := by rw [← heq]
      have ha : (a.1 == p) = true := by simp [hap]
      have hz : rest.countP (fun pq => pq.1 == p) = 0 := by
        rw [List.countP_eq_zero]
        intro x hx
        simp only [beq_iff_eq]
        intro hxp
        apply hnd.1
        rw [hap, ← hxp]
        exact List.mem_map_of_mem Prod.fst hx
      rw [hz, ha]
      simp
    · have ha : (a.1 == p) = false := by
        simp only [beq_eq_false_iff_ne, ne_eq]
        intro hap
        apply hnd.1
        rw [hap]
        exact List.mem_map_of_mem Prod.fst hmem
      rw [ih p q hnd.2 hmem, ha]
      simp

/-- In an entry list with pairwise-distinct keys, all entries sharing a key
agree on the value. -/
lemma fst_nodup_val_eq :
    ∀ (prods : List (JSStr × Nat)) (p : JSStr) (q q' : Nat),
      (prods.map Prod.fst).Nodup → (p, q) ∈ prods → (p, q') ∈ prods → q' = q := by
  intro prods
  induction prods with
  | nil => intro p q q' _ hm; cases hm
  | cons a rest ih =>
    intro p q q' hnd hm hm'
    rw [List.map_cons, List.nodup_cons] at hnd
    rcases List.mem_cons.mp hm with heq | hmem
    · rcases List.mem_cons.mp hm' with heq' | hmem'
      · rw [← heq] at heq'
        injection heq' with h1 h2
      · exfalso
        apply hnd.1
        have hap : a.1 = p := by rw [← heq]
        rw [hap]
        exact List.mem_map_of_mem Prod.fst hmem'
    · rcases List.mem_cons.mp hm' with heq' | hmem'
      · exfalso
        apply hnd.1
        have hap : a.1 = p := by rw [← heq']
        rw [hap]
        exact List.mem_map_of_mem Prod.fst hmem
      · exact ih p q q' hnd.2 hmem hmem'

/-- C1: one implant record with N teeth yields exactly N persisted implant
rows, each with quantity 1; one bone-graft record with N teeth and M
distinct product names yields exactly N×M persisted bone-graft rows, N per
product, each carrying that product's occurrence count (not divided across
teeth). -/
theorem claim1_persistence_counts
    (dbI dbB : DBState) (branchI branchB : JSStr) (r : ImplantRecord) (s : BoneGraftRecord)
    (hnd : (s.products.map Prod.fst).Nodup) :
    ((saveImplantRecords dbI branchI [r]).1 = r.teethSet.length ∧
     (saveImplantRecords dbI branchI [r]).2.implants.length =
       dbI.implants.length + r.teethSet.length ∧
     ∀ row ∈ (saveImplantRecords dbI branchI [r]).2.implants.drop dbI.implants.length,
       row.quantity = 1) ∧
    ((saveBoneGraftRecords dbB branchB [s]).1 = s.teethSet.length * s.products.length ∧
     (saveBoneGraftRecords dbB branchB [s]).2.boneGrafts.length =
       dbB.boneGrafts.length + s.teethSet.length * s.products.length ∧
     ∀ p q, (p, q) ∈ s.products →
       ((((saveBoneGraftRecords dbB branchB [s]).2.boneGrafts.drop
            dbB.boneGrafts.length).filter (fun row => row.productName == p)).length =
          s.teethSet.length ∧
        ∀ row ∈ (saveBoneGraftRecords dbB branchB [s]).2.boneGrafts.drop
            dbB.boneGrafts.length,
          row.productName = p → row.quantity = q)) := by
  obtain ⟨rowsI, hI1, hI2, hI3, hI4⟩ := implant_fold_spec branchI r r.teethSet 0 dbI
  obtain ⟨rowsB, hB1, hB2, hB3⟩ := boneTooth_fold_spec branchB s s.teethSet 0 dbB
  have eI1 : (saveImplantRecords dbI branchI [r]).1 = 0 + r.teethSet.length := hI1
  have eI2 : (saveImplantRecords dbI branchI [r]).2.implants = dbI.implants ++ rowsI := hI2
  have eB1 : (saveBoneGraftRecords dbB branchB [s]).1 =
      0 + s.teethSet.length * s.products.length := hB1
  have eB2 : (saveBoneGraftRecords dbB branchB [s]).2.boneGrafts =
      dbB.boneGrafts ++ rowsB := hB2
  have hdropI : (saveImplantRecords dbI branchI [r]).2.implants.drop dbI.implants.length =
      rowsI := by
    rw [eI2, List.drop_left]
  have hdropB : (saveBoneGraftRecords dbB branchB [s]).2.boneGrafts.drop
      dbB.boneGrafts.length = rowsB := by
    rw [eB2, List.drop_left]
  have hlenB : rowsB.length = s.teethSet.length * s.products.length := by
    have := congrArg List.length hB3
    simpa using this
  refine ⟨⟨by omega, ?_, ?_⟩, ⟨by omega, ?_, ?_⟩⟩
  · rw [eI2]
    simp [hI3]
  · intro row hr
    rw [hdropI] at hr
    exact hI4 row hr
  · rw [eB2]
    simp [hlenB]
  · intro p q hpq
    constructor
    · rw [hdropB]
      have hcnt : rowsB.countP (fun row => row.productName == p) =
          (rowsB.map (fun row => (row.productName, row.quantity))).countP
            (fun pq => pq.1 == p) := by
        rw [List.countP_map]
        rfl
      rw [← List.countP_eq_length_filter, hcnt, hB3, List.countP_flatten,
        List.map_replicate, List.sum_replicate, smul_eq_mul,
        countP_fst_one s.products p q hnd hpq, Nat.mul_one]
    · intro row hrow hname
      rw [hdropB] at hrow
      have hmem : (row.productName, row.quantity) ∈
          (List.replicate s.teethSet.length s.products).flatten := by
        rw [← hB3]
        exact List.mem_map_of_mem _ hrow
      rw [List.mem_flatten] at hmem
      obtain ⟨l, hl, hpl⟩ := hmem
      rw [List.eq_of_mem_replicate hl] at hpl
      rw [hname] at hpl
      exact fst_nodup_val_eq s.products p q row.quantity hnd hpq hpl

def c1Db : DBState := ⟨1, [], [], []⟩

def c1Implant : ImplantRecord :=
  ⟨jstr "2024-03-03", jstr "D", jstr "4", [some (jstr "11"), some (jstr "12")], 2,
   jstr "OSSTEM", jstr "prod", false⟩

def c1Bone : BoneGraftRecord :=
  ⟨jstr "2024-03-03", jstr "D", jstr "4", [some (jstr "21"), some (jstr "22")],
   [(jstr "BoneX", 2), (jstr "BoneY", 1)]⟩

/-- Witness for C1 at a concrete two-tooth implant record and a two-tooth,
two-product bone-graft record. -/
theorem claim1_persistence_counts_witness :
    (c1Bone.products.map Prod.fst).Nodup ∧
    (((saveImplantRecords c1Db (jstr "b") [c1Implant]).1 = c1Implant.teethSet.length ∧
      (saveImplantRecords c1Db (jstr "b") [c1Implant]).2.implants.length =
        c1Db.implants.length + c1Implant.teethSet.length ∧
      ∀ row ∈ (saveImplantRecords c1Db (jstr "b") [c1Implant]).2.implants.drop
          c1Db.implants.length,
        row.quantity = 1) ∧
     ((saveBoneGraftRecords c1Db (jstr "b") [c1Bone]).1 =
        c1Bone.teethSet.length * c1Bone.products.length ∧
      (saveBoneGraftRecords c1Db (jstr "b") [c1Bone]).2.boneGrafts.length =
        c1Db.boneGrafts.length + c1Bone.teethSet.length * c1Bone.products.length ∧
      ∀ p q, (p, q) ∈ c1Bone.products →
        ((((saveBoneGraftRecords c1Db (jstr "b") [c1Bone]).2.boneGrafts.drop
             c1Db.boneGrafts.length).filter (fun row => row.productName == p)).length =
           c1Bone.teethSet.length ∧
         ∀ row ∈ (saveBoneGraftRecords c1Db (jstr "b") [c1Bone]).2.boneGrafts.drop
             c1Db.boneGrafts.length,
           row.productName = p → row.quantity = q))) :=
  ⟨by decide,
   claim1_persistence_counts c1Db c1Db (jstr "b") (jstr "b") c1Implant c1Bone (by decide)⟩

end DentalEmr
